import Mathlib

/-!
Verification of the new_pymtl translation pipeline and the Bits value type.

This file gives a shallow embedding of the parts of the repository that the
checked properties are about:

* new_pymtl/Bits.py: the fixed-width bit-vector value class.  Python
  arbitrary-precision integers become Lean Int; Python bit masking with
  a mask 2^n - 1 becomes reduction modulo 2^n (for every Python int v,
  v & (2^n - 1) = v mod 2^n with a non-negative result, because Python
  integers behave as infinite two's-complement bit strings).

* new_pymtl/translation/visitors.py: the AST passes, embedded over an
  explicit syntax-tree type AExpr whose nodes carry the annotation slot
  the passes read and write, and an explicit design-object type DObj
  standing for the live Python objects the binder resolves against.
-/

/--
Design objects the translation passes distinguish.  Mirrors the object
taxonomy probed by visitors.py: Model instances (checked in the source via
the class_name attribute or isinstance Model), PortBundle instances,
Signal-like objects (Wire/InPort/OutPort; they carry an nbits attribute and
a parent link), plain integer constants, Bits constants, the (name, value)
tuples produced by type inference, and indexed lists of objects (PortList).
Model.py, signals.py and signal_lists.py are not under src/, so the object
surface is modelled from the spec: component instances and bundles expose
attribute-style lookup of their named children, signals expose a bit width
and a parent link, indexed collections expose per-index lookup.
-/
inductive DObj where
  | Model (name className : String) (fields : List (String × DObj))
  | PortBundle (name : String) (fields : List (String × DObj))
  | Signal (name : String) (nbits : Int) (parent : Option String)
  | IntConst (n : Int)
  | BitsConst (nbits : Nat) (uint : Int)
  | PairConst (s : String) (n : Int)
  | ObjList (name : String) (elems : List DObj)

mutual

/-- Structural equality on design objects (models Python object comparison
for the identity and membership checks the passes perform). -/
def DObj.beq : DObj → DObj → Bool
  | .Model n1 c1 f1, .Model n2 c2 f2 => n1 == n2 && c1 == c2 && DObj.beqFields f1 f2
  | .PortBundle n1 f1, .PortBundle n2 f2 => n1 == n2 && DObj.beqFields f1 f2
  | .Signal n1 w1 p1, .Signal n2 w2 p2 => n1 == n2 && w1 == w2 && p1 == p2
  | .IntConst a, .IntConst b => a == b
  | .BitsConst w1 u1, .BitsConst w2 u2 => w1 == w2 && u1 == u2
  | .PairConst s1 n1, .PairConst s2 n2 => s1 == s2 && n1 == n2
  | .ObjList n1 e1, .ObjList n2 e2 => n1 == n2 && DObj.beqList e1 e2
  | _, _ => false

def DObj.beqFields : List (String × DObj) → List (String × DObj) → Bool
  | [], [] => true
  | (k1, v1) :: r1, (k2, v2) :: r2 => k1 == k2 && DObj.beq v1 v2 && DObj.beqFields r1 r2
  | _, _ => false

def DObj.beqList : List DObj → List DObj → Bool
  | [], [] => true
  | a :: r1, b :: r2 => DObj.beq a b && DObj.beqList r1 r2
  | _, _ => false

end

instance : BEq DObj := ⟨DObj.beq⟩

/-- Attribute lookup on a design object (the getattr probe performed by
AnnotateWithObjects).  Component instances and bundles expose their named
children; other objects expose no translation-relevant attributes, so the
probe fails (AttributeError in the source). -/
def DObj.getattr : DObj → String → Option DObj
  | .Model _ _ fields, a => (fields.find? (fun kv => kv.1 == a)).map Prod.snd
  | .PortBundle _ fields, a => (fields.find? (fun kv => kv.1 == a)).map Prod.snd
  | _, _ => none

/-- The nbits attribute read by InferTemporaryTypes on concat arguments:
present on Signal-like objects and on Bits constants, absent elsewhere. -/
def DObj.nbitsAttr : DObj → Option Int
  | .Signal _ w _ => some w
  | .BitsConst w _ => some (w : Int)
  | _ => none

/-- Modelled from the spec: the fully-qualified name of a signal used as the
register-store key (Signal.fullname lives in signals.py, which is not under
src/; the spec says registers are deduplicated by fully-qualified name, so
the parent path is joined to the local name). -/
def DObj.fullname : DObj → String
  | .Signal nm _ (some par) => par ++ "." ++ nm
  | .Signal nm _ none => nm
  | _ => ""

/-- The class_name probe of FlattenSubmodAttrs: hasattr(obj, class_name)
holds exactly for Model instances, and the pass then reads obj.name. -/
def DObj.classNameOwner : Option DObj → Option String
  | some (.Model nm _ _) => some nm
  | _ => none

/--
Syntax nodes, mirroring the Python ast node kinds the passes handle.  The
obj slot on Name/Attribute/Subscript is the _object annotation attached by
AnnotateWithObjects (none both for a never-annotated node and for an
annotation of None, which the passes treat alike).  An Attribute child is
optional because ast.NodeTransformer.generic_visit deletes a child field
when a visitor returns None for it (RemoveSelf, FlattenSubmodAttrs).
-/
inductive AExpr where
  | Name (id : String) (obj : Option DObj)
  | Num (n : Int)
  | Attribute (value : Option AExpr) (attr : String) (obj : Option DObj)
  | Subscript (value : AExpr) (slice : AExpr) (obj : Option DObj)
  | Index (value : AExpr)
  | Slice (lower upper step : AExpr)
  | Call (func : AExpr) (args : List AExpr)
  | BoolOp (values : List AExpr)
  | Compare (left right : AExpr)

/-- The _object annotation of a node (none when absent or None). -/
def AExpr.objOf : AExpr → Option DObj
  | .Name _ o => o
  | .Attribute _ _ o => o
  | .Subscript _ _ o => o
  | _ => none

/-- Statements, as needed by the assignment / for-loop passes. -/
inductive Stmt where
  | Assign (targets : List AExpr) (value : AExpr)
  | For (target : AExpr) (iter : AExpr) (body : List Stmt)

/-- PyObj from visitors.py: a dotted-path name together with the live
object currently denoted by a traversal. -/
structure PyObj where
  name : String
  inst : DObj

/-- PyObj.update: extend the accumulated name and swap the denoted object. -/
def PyObj.update (p : PyObj) (name : String) (inst : DObj) : PyObj :=
  ⟨p.name ++ name, inst⟩

/-- The environment AnnotateWithObjects is constructed with: the model
being translated, the globals of the function, and its closure variables. -/
structure BinderEnv where
  model : DObj
  func_globals : List (String × DObj)
  closed_vars : List (String × DObj)

/-- Assoc-list lookup standing for Python dict lookup. -/
def envLookup (l : List (String × DObj)) (k : String) : Option DObj :=
  (l.find? (fun kv => kv.1 == k)).map Prod.snd

/-- AnnotateWithObjects.visit_Name: compute the new current_obj binding for
a bare name (globals first, then unbound locals, then self, then other
closed-over variables). -/
def bindName (env : BinderEnv) (id : String) : Option PyObj :=
  match envLookup env.func_globals id with
  | some g => some ⟨"", g⟩
  | none =>
    match envLookup env.closed_vars id with
    | none => none
    | some v => if (v == env.model) then some ⟨"", v⟩ else some ⟨id, v⟩

/-- AnnotateWithObjects.visit_Attribute, the part after generic_visit:
given the binding produced by the receiver, probe the attribute.  On
success the binding is extended; on failure only the reserved accessor
names next/value/n/v are tolerated, any other name raises. -/
def bindAttribute (attr : String) (s : Option PyObj) : Except String (Option DObj × Option PyObj) :=
  match s with
  | some p =>
    match p.inst.getattr attr with
    | some x =>
      let p' := p.update attr x
      .ok (some p'.inst, some p')
    | none =>
      if attr ∈ ["next", "value", "n", "v"] then
        .ok (some p.inst, some p)
      else
        .error ("Error: Unknown attribute for this object: " ++ attr)
  | none => .ok (none, none)

/-- Indexing current_obj.inst at position 0, as visit_Subscript does.  A
non-empty list yields its first element; an empty list raises IndexError;
a Bits constant supports indexing through Bits.getitem (Bits.py is in
src/); other objects do not support translation-time indexing (signals.py
is not under src/ and the spec describes element projection only for
indexed collections). -/
def DObj.item0 : DObj → Except String DObj
  | .ObjList _ (e :: _) => .ok e
  | .ObjList _ [] => .error "IndexError: list index out of range"
  | .BitsConst w u =>
    if 0 < w then .ok (.BitsConst 1 (u % 2))
    else .error "assert 0 <= addr < self.nbits"
  | _ => .error "TypeError: object does not support indexing"

mutual

/-- AnnotateWithObjects.visit: traverse a tree, threading the current_obj
binding, annotating every Name/Attribute/Subscript node with the resolved
object.  Nodes without a dedicated visitor are traversed generically, which
threads the binding through their children unchanged. -/
def annotate (env : BinderEnv) : AExpr → Option PyObj → Except String (AExpr × Option PyObj)
  | .Name id _, _ =>
    let new_obj := bindName env id
    .ok (.Name id (new_obj.map PyObj.inst), new_obj)
  | .Num n, s => .ok (.Num n, s)
  | .Attribute v attr _, s => do
    let (v', s1) ←
      match v with
      | some ve => do
        let (ve', s1) ← annotate env ve s
        pure (some ve', s1)
      | none => pure (none, s)
    let (obj, s2) ← bindAttribute attr s1
    .ok (.Attribute v' attr obj, s2)
  | .Subscript v sl _, s => do
    let (v', s1) ← annotate env v s
    -- stash and restore the current_obj: the index is resolved in an
    -- isolated sub-traversal that starts from None, and the binding it
    -- produces is discarded
    let (sl', _) ← annotate env sl none
    match s1 with
    | none => .ok (.Subscript v' sl' none, none)
    | some p => do
      let e ← p.inst.item0
      .ok (.Subscript v' sl' (some p.inst), some (p.update "[]" e))
  | .Index e, s => do
    let (e', s') ← annotate env e s
    .ok (.Index e', s')
  | .Slice lo hi st, s => do
    let (lo', s1) ← annotate env lo s
    let (hi', s2) ← annotate env hi s1
    let (st', s3) ← annotate env st s2
    .ok (.Slice lo' hi' st', s3)
  | .Call f args, s => do
    let (f', s1) ← annotate env f s
    let (args', s2) ← annotateList env args s1
    .ok (.Call f' args', s2)
  | .BoolOp vs, s => do
    let (vs', s') ← annotateList env vs s
    .ok (.BoolOp vs', s')
  | .Compare l r, s => do
    let (l', s1) ← annotate env l s
    let (r', s2) ← annotate env r s1
    .ok (.Compare l' r', s2)

def annotateList (env : BinderEnv) : List AExpr → Option PyObj → Except String (List AExpr × Option PyObj)
  | [], s => .ok ([], s)
  | a :: rest, s => do
    let (a', s') ← annotate env a s
    let (rest', s'') ← annotateList env rest s'
    .ok (a' :: rest', s'')

end

/-- SimplifyDecorator.visit_FunctionDef: assert the decorator list is
non-empty, read the attr of its first element (an AttributeError if the
first decorator is not an attribute node), and rebuild the function with
the single bare tag string as its decorator list. -/
def simplifyDecorator_visit_FunctionDef (name : String) (args : List String)
    (body : List Stmt) (decorator_list : List AExpr) :
    Except String (String × List String × List Stmt × List String) :=
  match decorator_list with
  | [] => .error "assert len( node.decorator_list )"
  | d :: _ =>
    match d with
    | .Attribute _ attr _ => .ok (name, args, body, [attr])
    | _ => .error "AttributeError: decorator node has no attribute attr"

/-- ThreeExprLoops.visit_For, acting on the iterable of the loop: the
iterable must be a call of a bare name, the name must be range or xrange,
and 1, 2 or 3 positional arguments produce the explicit Slice triple with
start defaulting to 0 and step to 1; any other argument count raises. -/
def threeExprLoops_visit_For_iter : AExpr → Except String AExpr
  | .Call (.Name fid _) args =>
    if fid = "range" ∨ fid = "xrange" then
      match args with
      | [a0] => .ok (.Slice (.Num 0) a0 (.Num 1))
      | [a0, a1] => .ok (.Slice a0 a1 (.Num 1))
      | [a0, a1, a2] => .ok (.Slice a0 a1 a2)
      | _ => .error "Invalid # of arguments to range function!"
    else
      .error "assert call.func.id in range xrange"
  | .Call _ _ => .error "assert isinstance( node.iter.func, Name )"
  | _ => .error "assert isinstance( node.iter, Call )"

/-- FlattenSubmodAttrs.visit_Attribute rename target: when the direct
child was removed as a submodule, the attribute collapses into a single
Name mangled with the submodule separator. -/
def submodMangle (sub attr : String) : String := sub ++ "$" ++ attr

mutual

/-- FlattenSubmodAttrs.visit: transformer threading the submodule state.
Returning none for a node means the node is deleted (the source returns
None from visit_Attribute when the node resolved to a submodule, and
generic_visit then removes the child field).  Only visit_Attribute exists
in the source; every other node kind is traversed generically, leaving the
state untouched at leaves.  A deletion underneath a node kind other than
Attribute is not modelled (the source would leave a malformed tree there).
-/
def fsaVisit : AExpr → Option String → Except String (Option AExpr × Option String)
  | .Attribute v attr obj, sub => do
    let (v', sub') ←
      match v with
      | some ve => fsaVisit ve sub
      | none => pure (none, sub)
    let node : AExpr :=
      match sub' with
      | some sm => .Name (submodMangle sm attr) obj
      | none => .Attribute v' attr obj
    match DObj.classNameOwner node.objOf with
    | some mname => .ok (none, some mname)
    | none => .ok (some node, none)
  | .Name id obj, sub => .ok (some (.Name id obj), sub)
  | .Num n, sub => .ok (some (.Num n), sub)
  | .Index e, sub => do
    let (e?, s') ← fsaVisit e sub
    match e? with
    | some e' => .ok (some (.Index e'), s')
    | none => .error "unmodelled: child deleted under Index"
  | .Subscript v sl obj, sub => do
    let (v?, s1) ← fsaVisit v sub
    let (sl?, s2) ← fsaVisit sl s1
    match v?, sl? with
    | some v', some sl' => .ok (some (.Subscript v' sl' obj), s2)
    | _, _ => .error "unmodelled: child deleted under Subscript"
  | .Slice lo hi st, sub => do
    let (lo?, s1) ← fsaVisit lo sub
    let (hi?, s2) ← fsaVisit hi s1
    let (st?, s3) ← fsaVisit st s2
    match lo?, hi?, st? with
    | some lo', some hi', some st' => .ok (some (.Slice lo' hi' st'), s3)
    | _, _, _ => .error "unmodelled: child deleted under Slice"
  | .Call f args, sub => do
    let (f?, s1) ← fsaVisit f sub
    let (args', s2) ← fsaVisitList args s1
    match f? with
    | some f' => .ok (some (.Call f' args'), s2)
    | none => .error "unmodelled: child deleted under Call"
  | .BoolOp vs, sub => do
    let (vs', s') ← fsaVisitList vs sub
    .ok (some (.BoolOp vs'), s')
  | .Compare l r, sub => do
    let (l?, s1) ← fsaVisit l sub
    let (r?, s2) ← fsaVisit r s1
    match l?, r? with
    | some l', some r' => .ok (some (.Compare l' r'), s2)
    | _, _ => .error "unmodelled: child deleted under Compare"

def fsaVisitList : List AExpr → Option String → Except String (List AExpr × Option String)
  | [], s => .ok ([], s)
  | a :: rest, s => do
    let (a?, s') ← fsaVisit a s
    let (rest', s'') ← fsaVisitList rest s'
    match a? with
    | some a' => .ok (a' :: rest', s'')
    | none => .ok (rest', s'')

end

/-- Wire(nbits) with its name then set to the assignment target, as
InferTemporaryTypes does for every synthesised temporary.  Modelled from
the spec: the Wire constructor lives in signals.py, which is not under
src/; the spec says the pass attaches a temporary signal of the given
width, standalone (no hierarchy parent). -/
def wireNamed (id : String) (nbits : Int) : DObj :=
  .Signal id nbits none

/-- The shallow copy performed by InferTemporaryTypes for a Name/Attribute
right-hand side: copy the resolved object, rename it to the target
identifier, clear its parent link.  Setting the name attribute fails on a
tuple (AttributeError); on a Bits constant Python would attach dynamic
attributes not represented here, so the value is kept unchanged. -/
def DObj.renamedFor (o : DObj) (id : String) : Except String DObj :=
  match o with
  | .Signal _ w _ => .ok (.Signal id w none)
  | .Model _ cls fields => .ok (.Model id cls fields)
  | .PortBundle _ fields => .ok (.PortBundle id fields)
  | .ObjList _ elems => .ok (.ObjList id elems)
  | .BitsConst w u => .ok (.BitsConst w u)
  | .IntConst n => .ok (.IntConst n)
  | .PairConst _ _ => .error "AttributeError: tuple object has no attribute name"

/-- InferTemporaryTypes: infer the object to attach when the right-hand
side is a Name or Attribute node, from that node's resolved object.  An
integer resolves to a (target, value) pair; None cannot be copied and
renamed (AttributeError in the source); anything else is shallow-copied
and renamed. -/
def inferFromRHSObject (id : String) (vo : Option DObj) : Except String DObj :=
  match vo with
  | some (.IntConst n) => .ok (.PairConst id n)
  | some o => o.renamedFor id
  | none => .error "AttributeError: NoneType object has no attribute name"

/-- The list comprehension of the concat branch of InferTemporaryTypes:
the nbits attribute of every argument's resolved object, failing on the
first argument whose object lacks one. -/
def collectNbits : List AExpr → Except String (List Int)
  | [] => .ok []
  | x :: rest =>
    match x.objOf.bind DObj.nbitsAttr with
    | some w => (collectNbits rest).map (fun ws => w :: ws)
    | none => .error "AttributeError: object has no attribute nbits"

/-- InferTemporaryTypes: infer the object to attach when the right-hand
side is a call, from the function name and arguments.  sext/zext read the
explicit width from the second argument, which must resolve to a plain
integer; concat sums the nbits of every argument's resolved object; the
reduction builtins give a single bit; anything else is untranslatable. -/
def inferCall (id : String) (fn : String) (args : List AExpr) : Except String DObj :=
  if fn = "sext" ∨ fn = "zext" then
    match args.get? 1 with
    | none => .error "IndexError: list index out of range"
    | some warg =>
      match warg.objOf with
      | some (.IntConst n) => .ok (wireNamed id n)
      | _ => .error "assert isinstance( nbits, int )"
  else if fn = "concat" then
    (collectNbits args).map (fun ws => wireNamed id ws.sum)
  else if fn = "reduce_and" ∨ fn = "reduce_or" ∨ fn = "reduce_xor" then
    .ok (wireNamed id 1)
  else
    .error ("Function is not translatable: " ++ fn)

/-- InferTemporaryTypes.visit_Assign: exactly one target; if the target
carries no annotation it must be a bare Name, and the attached object is
inferred from the shape of the right-hand side.  A target already
annotated with a Bits constant trips the assertion inside Bits.__eq__
when compared against None (Bits.py asserts the compared value is
non-negative). -/
def inferTemporaryTypes_visit_Assign (targets : List AExpr) (value : AExpr) :
    Except String (List AExpr × AExpr) :=
  match targets with
  | [t] =>
    match t.objOf with
    | some (.BitsConst _ _) => .error "AssertionError: Bits.__eq__ compared with None"
    | some _ => .ok ([t], value)
    | none =>
      match t with
      | .Name id _ =>
        match value with
        | .Name _ vo => (inferFromRHSObject id vo).map (fun o => ([.Name id (some o)], value))
        | .Attribute _ _ vo => (inferFromRHSObject id vo).map (fun o => ([.Name id (some o)], value))
        | .Num n => .ok ([.Name id (some (.PairConst id n))], value)
        | .BoolOp _ => .ok ([.Name id (some (wireNamed id 1))], value)
        | .Compare _ _ => .ok ([.Name id (some (wireNamed id 1))], value)
        | .Subscript _ (.Index _) _ => .ok ([.Name id (some (wireNamed id 1))], value)
        | .Call f args =>
          match f with
          | .Name fn _ => (inferCall id fn args).map (fun o => ([.Name id (some o)], value))
          | _ => .error "AttributeError: func node has no attribute id"
        | _ => .error "Cannot infer type from node!"
      | _ => .error "assert isinstance( node.targets[0], Name )"
  | _ => .error "assert len( node.targets ) == 1"

/-- Python set add: no-op when the element is already present. -/
def setAdd [BEq α] (l : List α) (x : α) : List α :=
  if l.contains x then l else l ++ [x]

/-- Python dict update keyed by string. -/
def dictSet (l : List (String × DObj)) (k : String) (v : DObj) : List (String × DObj) :=
  match l with
  | [] => [(k, v)]
  | (k', v') :: rest => if k' == k then (k, v) :: rest else (k', v') :: dictSet rest k v

/-- Record an array in the tracking set, oring the is_lhs flag carried with
it (the source sets the flag as an attribute on the list object itself and
adds the object to a set, so re-encounters merge by object). -/
def arraysAdd (l : List (DObj × Bool)) (o : DObj) (lhs : Bool) : List (DObj × Bool) :=
  match l with
  | [] => [(o, lhs)]
  | (o', f) :: rest => if o' == o then (o', f || lhs) :: rest else (o', f) :: arraysAdd rest o lhs

/-- Mutable traversal state of GetRegsIntsParamsTempsArrays. -/
structure ClassifierState where
  lhs : Bool
  store : List (String × DObj)
  loopvar : List String
  params : List (String × DObj)
  arrays : List (DObj × Bool)
  arrayelms : List DObj

mutual

/-- GetRegsIntsParamsTempsArrays statement traversal: visit_Assign and
visit_For from the source. -/
def classifyStmt (st : ClassifierState) : Stmt → Except String ClassifierState
  | .Assign targets value =>
    match targets with
    | [t] => do
      let st1 ← classifyExpr { st with lhs := true } t
      let st2 ← classifyExpr { st1 with lhs := false } value
      match t.objOf with
      | some obj =>
        if st2.arrayelms.contains obj then .ok st2
        else
          match obj with
          | .Signal nm w par =>
            .ok { st2 with store := dictSet st2.store (DObj.fullname (.Signal nm w par)) (.Signal nm w par) }
          | .PairConst nm _ => .ok { st2 with loopvar := setAdd st2.loopvar nm }
          | _ => .ok st2
      | none => .ok st2
    | _ => .error "assert len( node.targets ) == 1"
  | .For target iter body =>
    match iter with
    | .Slice _ _ _ =>
      match target with
      | .Name id _ => do
        let st1 := { st with loopvar := setAdd st.loopvar id }
        let st2 ← classifyExpr st1 target
        let st3 ← classifyExpr st2 iter
        classifyStmts st3 body
      | _ => .error "assert isinstance( node.target, Name )"
    | _ => .error "assert isinstance( node.iter, Slice )"

def classifyStmts (st : ClassifierState) : List Stmt → Except String ClassifierState
  | [] => .ok st
  | s :: rest => do
    let st' ← classifyStmt st s
    classifyStmts st' rest

/-- GetRegsIntsParamsTempsArrays expression traversal: visit_Attribute and
visit_Name collect parameters without recursing (the generic_visit in the
source is commented out); visit_Subscript tracks arrays and their elements
and recurses into value and slice; node kinds without a visitor are
traversed generically. -/
def classifyExpr (st : ClassifierState) : AExpr → Except String ClassifierState
  | .Attribute _ attr obj =>
    match obj with
    | some (.IntConst n) => .ok { st with params := setAdd st.params (attr, .IntConst n) }
    | some (.BitsConst w u) => .ok { st with params := setAdd st.params (attr, .BitsConst w u) }
    | _ => .ok st
  | .Name id obj =>
    match obj with
    | some (.IntConst n) => .ok { st with params := setAdd st.params (id, .IntConst n) }
    | some (.BitsConst w u) => .ok { st with params := setAdd st.params (id, .BitsConst w u) }
    | _ => .ok st
  | .Subscript v sl obj => do
    let st1 :=
      match obj with
      | some (.ObjList nm elems) =>
        { st with
          arrays := arraysAdd st.arrays (.ObjList nm elems) st.lhs,
          arrayelms := elems.foldl setAdd st.arrayelms }
      | _ => st
    let st2 ← classifyExpr st1 v
    classifyExpr st2 sl
  | .Num _ => .ok st
  | .Index e => classifyExpr st e
  | .Slice lo hi step => do
    let st1 ← classifyExpr st lo
    let st2 ← classifyExpr st1 hi
    classifyExpr st2 step
  | .Call f args => do
    let st1 ← classifyExpr st f
    classifyExprs st1 args
  | .BoolOp vs => classifyExprs st vs
  | .Compare l r => do
    let st1 ← classifyExpr st l
    classifyExpr st1 r

def classifyExprs (st : ClassifierState) : List AExpr → Except String ClassifierState
  | [] => .ok st
  | e :: rest => do
    let st' ← classifyExpr st e
    classifyExprs st' rest

end

/-- GetRegsIntsParamsTempsArrays.get: run the traversal from the empty
state and return the register store values (a set), the loop-variable
names, the parameter pairs, and the arrays with their lhs flags. -/
def getRegsIntsParamsTempsArrays (body : List Stmt) :
    Except String (List DObj × List String × List (String × DObj) × List (DObj × Bool)) := do
  let st ← classifyStmts ⟨false, [], [], [], [], []⟩ body
  .ok (st.store.foldl (fun acc kv => setAdd acc kv.2) [], st.loopvar, st.params, st.arrays)

/-! ## Bits.py -/

/-- A Bits value: the declared width and the stored unsigned integer
field _uint.  The representation invariant claimed for the class is
Bits.wf below; the field itself is an Int because one code path can store
a negative value. -/
structure Bits where
  nbits : Nat
  uint : Int
deriving DecidableEq

/-- The representation invariant: positive declared width and a stored
value that fits it as an unsigned integer. -/
def Bits.wf (b : Bits) : Prop :=
  0 < b.nbits ∧ 0 ≤ b.uint ∧ b.uint ≤ 2 ^ b.nbits - 1

instance (b : Bits) : Decidable b.wf := by
  unfold Bits.wf; infer_instance

/-- Bits.__init__: assert the width is positive; unless trunc, assert
-2^nbits <= value <= 2^nbits - 1; store value & mask.  In Python the
negative-value conversion ~(-value) + 1 equals value itself, and anding an
arbitrary integer with the mask 2^nbits - 1 reduces it modulo 2^nbits with
a non-negative result, which is what the stored field is. -/
def Bits.init (nbits : Nat) (value : Int) (trunc : Bool) : Option Bits :=
  if nbits = 0 then none
  else if ¬trunc ∧ ¬(-(2 ^ nbits : Int) ≤ value ∧ value ≤ 2 ^ nbits - 1) then none
  else some ⟨nbits, value % (2 ^ nbits : Int)⟩

/-- Bits.write: assert the value is in the signed/unsigned accepted range
of the width, then store value & mask. -/
def Bits.write (b : Bits) (value : Int) : Option Bits :=
  if -(2 ^ b.nbits : Int) ≤ value ∧ value ≤ 2 ^ b.nbits - 1 then
    some ⟨b.nbits, value % (2 ^ b.nbits : Int)⟩
  else none

/-- Addresses accepted by Bits.__getitem__ / Bits.write_slice: a slice
with optional start and stop, or a single bit index. -/
inductive BAddr where
  | slice (start stop : Option Int)
  | index (i : Int)

/-- Bits.write_slice.  The fully open slice stores the asserted value
directly, without masking.  A partial slice clears the addressed bit range
of the stored value and ors in the new bits: clearing the bits of u in
positions start..stop is u - 2^start * ((u / 2^start) % 2^(stop-start)),
which is the value of u & ~(ones << start) for every integer u under
Python's infinite two's-complement bitwise semantics, and oring a
non-negative value into cleared bit positions is addition.  A single bit
index accepts only 0 or 1 and sets that bit the same way. -/
def Bits.write_slice (b : Bits) (addr : BAddr) (value : Int) : Option Bits :=
  match addr with
  | .slice none none =>
    if -(2 ^ b.nbits : Int) ≤ value ∧ value ≤ 2 ^ b.nbits - 1 then
      some ⟨b.nbits, value⟩
    else none
  | .slice ostart ostop =>
    let start : Int := ostart.getD 0
    let stop : Int := ostop.getD (b.nbits : Int)
    if 0 ≤ start ∧ start < stop ∧ stop ≤ (b.nbits : Int) then
      if -(2 ^ b.nbits : Int) ≤ value ∧ value ≤ 2 ^ b.nbits - 1 then
        let k := (stop - start).toNat
        let cleared := b.uint - 2 ^ start.toNat * ((b.uint / 2 ^ start.toNat) % (2 ^ k : Int))
        some ⟨b.nbits, cleared + (value % (2 ^ k : Int)) * 2 ^ start.toNat⟩
      else none
    else none
  | .index i =>
    if 0 ≤ i ∧ i < (b.nbits : Int) then
      if 0 ≤ value ∧ value ≤ 1 then
        let cleared := b.uint - 2 ^ i.toNat * ((b.uint / 2 ^ i.toNat) % 2)
        some ⟨b.nbits, cleared + value * 2 ^ i.toNat⟩
      else none
    else none

/-- Bits.__invert__: Python ~u is -u - 1, passed through the truncating
constructor. -/
def Bits.invert (a : Bits) : Option Bits :=
  Bits.init a.nbits (-a.uint - 1) true

/-- Bits.__add__ on two Bits: result width is the max of the operand
widths; the sum goes through the truncating constructor. -/
def Bits.add (a b : Bits) : Option Bits :=
  Bits.init (max a.nbits b.nbits) (a.uint + b.uint) true

/-- Bits.__sub__ on two Bits: result width is the max of the operand
widths; the difference goes through the truncating constructor. -/
def Bits.sub (a b : Bits) : Option Bits :=
  Bits.init (max a.nbits b.nbits) (a.uint - b.uint) true

/-- Bits.__mul__ on two Bits: asserts equal widths, and the product is
stored at double the width through the non-truncating constructor. -/
def Bits.mul (a b : Bits) : Option Bits :=
  if a.nbits = b.nbits then Bits.init (2 * a.nbits) (a.uint * b.uint) false
  else none

/-! ## Concrete design objects used by witnesses and counterexamples -/

/-- A two-element signal list, as a model field. -/
def exSigList : DObj := .ObjList "sigs" [.Signal "sigs_0" 4 none, .Signal "sigs_1" 4 none]

/-- A component carrying the signal list. -/
def exModel : DObj := .Model "top" "Top" [("sigs", exSigList)]

/-- A binder environment whose function closes over s bound to the model. -/
def exEnv : BinderEnv := ⟨exModel, [], [("s", exModel)]⟩

/-- A binder environment whose function closes over a 4-bit signal x. -/
def sigEnv : BinderEnv := ⟨.Model "m" "M" [], [], [("x", .Signal "x" 4 none)]⟩

/-! ## Helper lemmas -/

theorem exceptBindOk {α β : Type} (a : α) (f : α → Except String β) :
    (Except.ok a >>= f : Except String β) = f a := rfl

theorem exceptBindErr {α β : Type} (msg : String) (f : α → Except String β) :
    (Except.error msg >>= f : Except String β) = Except.error msg := rfl

theorem exceptMapOk {α β : Type} (f : α → β) (a : α) :
    (Except.map f (Except.ok a) : Except String β) = Except.ok (f a) := rfl

theorem exceptMapErr {α β : Type} (f : α → β) (msg : String) :
    (Except.map f (Except.error msg) : Except String β) = Except.error msg := rfl

theorem objOf_Name (id : String) (o : Option DObj) : (AExpr.Name id o).objOf = o := rfl

theorem objOf_Attribute (v : Option AExpr) (attr : String) (o : Option DObj) :
    (AExpr.Attribute v attr o).objOf = o := rfl

theorem classNameOwner_Model (nm cls : String) (fs : List (String × DObj)) :
    DObj.classNameOwner (some (.Model nm cls fs)) = some nm := rfl

/-- When every argument's resolved object exposes an nbits attribute, the
concat comprehension succeeds with exactly those widths. -/
theorem collectNbitsOk : ∀ (args : List AExpr) (ws : List Int),
    args.map (fun a => a.objOf.bind DObj.nbitsAttr) = ws.map some →
    collectNbits args = .ok ws := by
  intro args
  induction args with
  | nil =>
    intro ws h
    cases ws with
    | nil => rfl
    | cons w wr => simp at h
  | cons a rest ih =>
    intro ws h
    cases ws with
    | nil => simp at h
    | cons w wr =>
      simp only [List.map_cons, List.cons.injEq] at h
      simp [collectNbits, h.1, ih wr h.2, exceptMapOk]

/-! ## Claims -/

/-- C1: for a for-loop iterable that is a call to range/xrange with 1, 2 or
3 positional arguments, ThreeExprLoops rewrites the iterable into the
explicit (start, stop, step) triple (0, arg0, 1), (arg0, arg1, 1) or
(arg0, arg1, arg2) respectively; any other argument count, and any other
iterable shape, raises a translation error. -/
theorem threeExprLoops_canonical_triples :
    (∀ f : String, (f = "range" ∨ f = "xrange") → ∀ o : Option DObj,
      (∀ a0 : AExpr, threeExprLoops_visit_For_iter (.Call (.Name f o) [a0]) =
        .ok (.Slice (.Num 0) a0 (.Num 1)))
      ∧ (∀ a0 a1 : AExpr, threeExprLoops_visit_For_iter (.Call (.Name f o) [a0, a1]) =
        .ok (.Slice a0 a1 (.Num 1)))
      ∧ (∀ a0 a1 a2 : AExpr, threeExprLoops_visit_For_iter (.Call (.Name f o) [a0, a1, a2]) =
        .ok (.Slice a0 a1 a2))
      ∧ (∀ args : List AExpr, args.length ≠ 1 → args.length ≠ 2 → args.length ≠ 3 →
          threeExprLoops_visit_For_iter (.Call (.Name f o) args) =
            .error "Invalid # of arguments to range function!"))
  ∧ (∀ iter : AExpr,
      (∀ (f : String) (o : Option DObj) (args : List AExpr),
        iter = .Call (.Name f o) args → ¬(f = "range" ∨ f = "xrange")) →
      ∃ msg, threeExprLoops_visit_For_iter iter = .error msg) := by
  constructor
  · intro f hf o
    refine ⟨fun a0 => ?_, fun a0 a1 => ?_, fun a0 a1 a2 => ?_, fun args h1 h2 h3 => ?_⟩
    · simp [threeExprLoops_visit_For_iter, if_pos hf]
    · simp [threeExprLoops_visit_For_iter, if_pos hf]
    · simp [threeExprLoops_visit_For_iter, if_pos hf]
    · rcases args with _ | ⟨a, _ | ⟨b, _ | ⟨c, _ | ⟨d, rest⟩⟩⟩⟩ <;>
        simp_all [threeExprLoops_visit_For_iter, if_pos hf]
  · intro iter hshape
    cases iter
    case Call fexpr args =>
      cases fexpr
      case Name fid o =>
        have hnot := hshape fid o args rfl
        exact ⟨"assert call.func.id in range xrange",
          by simp [threeExprLoops_visit_For_iter, if_neg hnot]⟩
      all_goals exact ⟨"assert isinstance( node.iter.func, Name )", rfl⟩
    all_goals exact ⟨"assert isinstance( node.iter, Call )", rfl⟩

/-- Witness for C1 at concrete inputs: range with one argument, xrange
with three, and range with zero arguments. -/
theorem threeExprLoops_canonical_triples_witness :
    threeExprLoops_visit_For_iter (.Call (.Name "range" none) [.Num 4]) =
      .ok (.Slice (.Num 0) (.Num 4) (.Num 1))
  ∧ threeExprLoops_visit_For_iter (.Call (.Name "xrange" none) [.Num 1, .Num 5, .Num 2]) =
      .ok (.Slice (.Num 1) (.Num 5) (.Num 2))
  ∧ threeExprLoops_visit_For_iter (.Call (.Name "range" none) ([] : List AExpr)) =
      .error "Invalid # of arguments to range function!" := by
  refine ⟨?_, ?_, ?_⟩
  · exact (threeExprLoops_canonical_triples.1 "range" (Or.inl rfl) none).1 (.Num 4)
  · exact (threeExprLoops_canonical_triples.1 "xrange" (Or.inr rfl) none).2.2.1
      (.Num 1) (.Num 5) (.Num 2)
  · exact (threeExprLoops_canonical_triples.1 "range" (Or.inl rfl) none).2.2.2
      [] (by decide) (by decide) (by decide)

/-- C2 counterexample: a decorator list of length two does NOT raise; the
pass accepts it, reduces the first decorator to its tag string and drops
the second.  The claim that a decorator list of length two or more raises
an error is therefore false on the code (the source only asserts that the
list is non-empty). -/
theorem simplifyDecorator_two_decorators_accepted :
    simplifyDecorator_visit_FunctionDef "logic" [] []
      [.Attribute (some (.Name "s" none)) "combinational" none,
       .Attribute (some (.Name "s" none)) "posedge_clk" none] =
      .ok ("logic", [], [], ["combinational"]) := rfl

/-- C2 (amended): an empty decorator list raises an error; a decorator
list with one or more decorators is accepted, the first decorator (an
attribute-shaped node) is reduced to its bare tag string, and any further
decorators are silently discarded. -/
theorem simplifyDecorator_empty_raises_first_tag_kept
    (name : String) (args : List String) (body : List Stmt) :
    simplifyDecorator_visit_FunctionDef name args body [] =
      .error "assert len( node.decorator_list )"
  ∧ ∀ (v : Option AExpr) (attr : String) (o : Option DObj) (rest : List AExpr),
      simplifyDecorator_visit_FunctionDef name args body (.Attribute v attr o :: rest) =
        .ok (name, args, body, [attr]) :=
  ⟨rfl, fun _ _ _ _ => rfl⟩

/-- C3 counterexample: for s.sigs[0] where sigs resolves to a non-empty
signal list, the Subscript node's attached object is the list itself, not
the projection of its first element (the first element is handed onward in
the traversal binding instead).  The claim that the subscript node's
attached object becomes the first element's projection is false on the
code. -/
theorem annotate_subscript_attaches_container_cex :
    annotate exEnv
      (.Subscript (.Attribute (some (.Name "s" none)) "sigs" none) (.Index (.Num 0)) none) none =
      .ok (.Subscript (.Attribute (some (.Name "s" (some exModel))) "sigs" (some exSigList))
             (.Index (.Num 0)) (some exSigList),
           some ⟨"sigs[]", .Signal "sigs_0" 4 none⟩)
  ∧ (exSigList ≠ DObj.Signal "sigs_0" 4 none) :=
  ⟨rfl, fun h => by simp [exSigList] at h⟩

/-- C3 (amended): the index of a subscript is resolved in an isolated
sub-traversal that starts with no inherited binding, and the binding it
produces does not leak into the result: for any two index expressions the
subscript resolves to the same annotation and outgoing binding.  When the
container's resolved object is a non-empty indexed collection, the
subscript node's attached object is the collection itself, while the
outgoing traversal binding becomes the collection's first element. -/
theorem annotate_subscript_isolated_index (env : BinderEnv) (v sl1 sl2 : AExpr)
    (s0 : Option PyObj) (v' sl1' sl2' : AExpr) (b1 b2 : Option PyObj)
    (p : PyObj) (nm : String) (e : DObj) (rest : List DObj)
    (hv : annotate env v s0 = .ok (v', some p))
    (hinst : p.inst = .ObjList nm (e :: rest))
    (h1 : annotate env sl1 none = .ok (sl1', b1))
    (h2 : annotate env sl2 none = .ok (sl2', b2)) :
    annotate env (.Subscript v sl1 none) s0 =
      .ok (.Subscript v' sl1' (some p.inst), some (p.update "[]" e))
  ∧ annotate env (.Subscript v sl2 none) s0 =
      .ok (.Subscript v' sl2' (some p.inst), some (p.update "[]" e)) := by
  constructor
  · simp [annotate, hv, h1, hinst, DObj.item0, exceptBindOk]
  · simp [annotate, hv, h2, hinst, DObj.item0, exceptBindOk]

/-- Witness for C3 at concrete inputs: s.sigs indexed by two different
index expressions resolves to the same container annotation and the same
first-element binding. -/
theorem annotate_subscript_isolated_index_witness :
    annotate exEnv
      (.Subscript (.Attribute (some (.Name "s" none)) "sigs" none) (.Index (.Num 0)) none) none =
      .ok (.Subscript (.Attribute (some (.Name "s" (some exModel))) "sigs" (some exSigList))
             (.Index (.Num 0)) (some exSigList),
           some ⟨"sigs[]", .Signal "sigs_0" 4 none⟩)
  ∧ annotate exEnv
      (.Subscript (.Attribute (some (.Name "s" none)) "sigs" none) (.Index (.Num 1)) none) none =
      .ok (.Subscript (.Attribute (some (.Name "s" (some exModel))) "sigs" (some exSigList))
             (.Index (.Num 1)) (some exSigList),
           some ⟨"sigs[]", .Signal "sigs_0" 4 none⟩) :=
  annotate_subscript_isolated_index exEnv
    (.Attribute (some (.Name "s" none)) "sigs" none) (.Index (.Num 0)) (.Index (.Num 1)) none
    (.Attribute (some (.Name "s" (some exModel))) "sigs" (some exSigList))
    (.Index (.Num 0)) (.Index (.Num 1)) none none
    ⟨"sigs", exSigList⟩ "sigs" (.Signal "sigs_0" 4 none) [.Signal "sigs_1" 4 none]
    rfl rfl rfl rfl

/-- C4: when an attribute access whose receiver resolved to a design
object cannot read the attribute off that object, a name outside the
reserved accessor set next/value/n/v raises a translation error whose
message names the offending attribute, while a reserved accessor name is
tolerated: no error, and the node is annotated with the receiver's object
with the binding unchanged. -/
theorem annotate_attribute_unknown_vs_reserved (env : BinderEnv) (v : AExpr) (attr : String)
    (s0 : Option PyObj) (v' : AExpr) (p : PyObj)
    (hv : annotate env v s0 = .ok (v', some p))
    (hget : p.inst.getattr attr = none) :
    (attr ∉ ["next", "value", "n", "v"] →
      annotate env (.Attribute (some v) attr none) s0 =
        .error ("Error: Unknown attribute for this object: " ++ attr))
  ∧ (attr ∈ ["next", "value", "n", "v"] →
      annotate env (.Attribute (some v) attr none) s0 =
        .ok (.Attribute (some v') attr (some p.inst), some p)) := by
  constructor
  · intro hres
    simp [annotate, hv, bindAttribute, hget, hres, exceptBindOk, exceptBindErr]
  · intro hres
    simp [annotate, hv, bindAttribute, hget, hres, exceptBindOk]

/-- Witness for C4 at a concrete input: a signal receiver with an unknown
attribute foo errors naming foo; the reserved accessor value is tolerated.
-/
theorem annotate_attribute_unknown_vs_reserved_witness :
    annotate sigEnv (.Attribute (some (.Name "x" none)) "foo" none) none =
      .error ("Error: Unknown attribute for this object: " ++ "foo")
  ∧ annotate sigEnv (.Attribute (some (.Name "x" none)) "value" none) none =
      .ok (.Attribute (some (.Name "x" (some (.Signal "x" 4 none)))) "value"
             (some (.Signal "x" 4 none)),
           some ⟨"x", .Signal "x" 4 none⟩) := by
  constructor
  · exact (annotate_attribute_unknown_vs_reserved sigEnv (.Name "x" none) "foo" none
      (.Name "x" (some (.Signal "x" 4 none))) ⟨"x", .Signal "x" 4 none⟩ rfl rfl).1 (by decide)
  · exact (annotate_attribute_unknown_vs_reserved sigEnv (.Name "x" none) "value" none
      (.Name "x" (some (.Signal "x" 4 none))) ⟨"x", .Signal "x" 4 none⟩ rfl rfl).2 (by decide)

/-- C5: for an assignment to an unannotated bare name from a call to
concat whose arguments all resolved to width-bearing objects, the inferred
temporary is a signal whose width is the sum of the argument widths. -/
theorem infer_concat_width_is_sum (id : String) (fo : Option DObj)
    (args : List AExpr) (ws : List Int)
    (h : args.map (fun a => a.objOf.bind DObj.nbitsAttr) = ws.map some) :
    inferTemporaryTypes_visit_Assign [.Name id none] (.Call (.Name "concat" fo) args) =
      .ok ([.Name id (some (.Signal id ws.sum none))], .Call (.Name "concat" fo) args) := by
  have hm := collectNbitsOk args ws h
  simp [inferTemporaryTypes_visit_Assign, objOf_Name, inferCall, hm, wireNamed, exceptMapOk]

/-- Witness for C5 at the spec's example: concat of widths 4 and 8 infers
width 12. -/
theorem infer_concat_width_is_sum_witness :
    inferTemporaryTypes_visit_Assign [.Name "tmp" none]
      (.Call (.Name "concat" none)
        [.Name "a" (some (.Signal "a" 4 none)), .Name "b" (some (.Signal "b" 8 none))]) =
      .ok ([.Name "tmp" (some (.Signal "tmp" 12 none))],
           .Call (.Name "concat" none)
             [.Name "a" (some (.Signal "a" 4 none)), .Name "b" (some (.Signal "b" 8 none))]) := by
  have h := infer_concat_width_is_sum "tmp" none
    [.Name "a" (some (.Signal "a" 4 none)), .Name "b" (some (.Signal "b" 8 none))] [4, 8] rfl
  exact h

/-- C6: for an assignment to an unannotated bare name from a call to
sext/zext, the inferred temporary is a signal whose width is exactly the
second argument's resolved integer value, regardless of the first
argument; a second argument not resolving to a plain integer fails the
pass. -/
theorem infer_sext_zext_explicit_width (id : String) (fo : Option DObj) (fn : String)
    (hfn : fn = "sext" ∨ fn = "zext") (a warg : AExpr) :
    (∀ n : Int, warg.objOf = some (.IntConst n) →
      inferTemporaryTypes_visit_Assign [.Name id none] (.Call (.Name fn fo) [a, warg]) =
        .ok ([.Name id (some (.Signal id n none))], .Call (.Name fn fo) [a, warg]))
  ∧ ((∀ n : Int, warg.objOf ≠ some (.IntConst n)) →
      inferTemporaryTypes_visit_Assign [.Name id none] (.Call (.Name fn fo) [a, warg]) =
        .error "assert isinstance( nbits, int )") := by
  constructor
  · intro n h
    rcases hfn with rfl | rfl <;>
      simp [inferTemporaryTypes_visit_Assign, objOf_Name, inferCall, h, wireNamed, exceptMapOk]
  · intro h
    rcases hov : warg.objOf with _ | o
    · rcases hfn with rfl | rfl <;>
        simp [inferTemporaryTypes_visit_Assign, objOf_Name, inferCall, hov, exceptMapErr]
    · cases o
      case IntConst n => exact absurd hov (h n)
      all_goals rcases hfn with rfl | rfl <;>
        simp [inferTemporaryTypes_visit_Assign, objOf_Name, inferCall, hov, exceptMapErr]

/-- Witness for C6 at the spec's example: sext of a 4-bit signal to an
explicit width 16 infers width exactly 16. -/
theorem infer_sext_zext_explicit_width_witness :
    inferTemporaryTypes_visit_Assign [.Name "tmp" none]
      (.Call (.Name "sext" none)
        [.Name "a" (some (.Signal "a" 4 none)), .Name "W" (some (.IntConst 16))]) =
      .ok ([.Name "tmp" (some (.Signal "tmp" 16 none))],
           .Call (.Name "sext" none)
             [.Name "a" (some (.Signal "a" 4 none)), .Name "W" (some (.IntConst 16))]) :=
  (infer_sext_zext_explicit_width "tmp" none "sext" (Or.inl rfl)
    (.Name "a" (some (.Signal "a" 4 none))) (.Name "W" (some (.IntConst 16)))).1 16 rfl

/-- C7: for a hierarchical reference s.sub.port where sub resolved to a
sub-component instance (an object with a class_name), FlattenSubmodAttrs
deletes the child node (first conjunct) and replaces the chain by one Name
whose identifier joins the sub-component name and the port name with the
sub-component separator, carrying the object originally resolved for the
port (second conjunct). -/
theorem flattenSubmodAttrs_collapses_submodule_ref (subAttr attr mn cls : String)
    (fields : List (String × DObj)) (pobj : DObj)
    (hp : DObj.classNameOwner (some pobj) = none) :
    fsaVisit (.Attribute none subAttr (some (.Model mn cls fields))) none = .ok (none, some mn)
  ∧ fsaVisit (.Attribute (some (.Attribute none subAttr (some (.Model mn cls fields))))
        attr (some pobj)) none =
      .ok (some (.Name (submodMangle mn attr) (some pobj)), none) := by
  refine ⟨rfl, ?_⟩
  simp [fsaVisit, objOf_Name, objOf_Attribute, classNameOwner_Model, hp, exceptBindOk]

/-- Witness for C7 at a concrete input: s.sub.out with sub a Model named
sub flattens to the single identifier sub$out annotated with the port's
object. -/
theorem flattenSubmodAttrs_collapses_submodule_ref_witness :
    fsaVisit (.Attribute none "sub" (some (.Model "sub" "Adder" []))) none = .ok (none, some "sub")
  ∧ fsaVisit (.Attribute (some (.Attribute none "sub" (some (.Model "sub" "Adder" [])))) "out"
        (some (.Signal "out" 8 (some "sub")))) none =
      .ok (some (.Name (submodMangle "sub" "out") (some (.Signal "out" 8 (some "sub")))), none) :=
  flattenSubmodAttrs_collapses_submodule_ref "sub" "out" "sub" "Adder" []
    (.Signal "out" 8 (some "sub")) rfl

/-- C8: a signal that is assigned inside a for-loop body while its name is
also the loop's induction variable lands in both the register store and
the loop-variable set; the overlap is produced as output, not rejected as
an error. -/
theorem classifier_register_and_loopvar_overlap (nm : String) (w : Int) (par : Option String)
    (lo hi st k : Int) :
    getRegsIntsParamsTempsArrays
      [.For (.Name nm none) (.Slice (.Num lo) (.Num hi) (.Num st))
        [.Assign [.Name nm (some (.Signal nm w par))] (.Num k)]] =
      .ok ([.Signal nm w par], [nm], [], []) := by
  simp [getRegsIntsParamsTempsArrays, classifyStmts, classifyStmt, classifyExpr, AExpr.objOf,
        setAdd, dictSet, List.contains, exceptBindOk, List.elem]

/-- C9: for well-formed Bits values, addition and subtraction produce a
Bits of width the maximum of the operand widths, holding the mathematical
result reduced modulo 2 to that width (two's-complement wraparound), and
multiplication of equal-width operands produces a Bits of double the
width. -/
theorem bits_add_sub_mul_semantics (a b : Bits) (ha : a.wf) (hb : b.wf) :
    Bits.add a b = some ⟨max a.nbits b.nbits, (a.uint + b.uint) % (2 ^ max a.nbits b.nbits : Int)⟩
  ∧ Bits.sub a b = some ⟨max a.nbits b.nbits, (a.uint - b.uint) % (2 ^ max a.nbits b.nbits : Int)⟩
  ∧ (a.nbits = b.nbits →
      Bits.mul a b = some ⟨2 * a.nbits, (a.uint * b.uint) % (2 ^ (2 * a.nbits) : Int)⟩) := by
  obtain ⟨ha1, ha2, ha3⟩ := ha
  obtain ⟨hb1, hb2, hb3⟩ := hb
  have hmax : ¬(max a.nbits b.nbits = 0) := by omega
  refine ⟨?_, ?_, ?_⟩
  · simp [Bits.add, Bits.init, hmax]
  · simp [Bits.sub, Bits.init, hmax]
  · intro hw
    have h2n : ¬(2 * a.nbits = 0) := by omega
    have h2pos : (0 : Int) < 2 ^ (2 * a.nbits) := pow_pos (by norm_num) _
    have hpow : (2 ^ (2 * a.nbits) : Int) = 2 ^ a.nbits * 2 ^ a.nbits := by
      rw [two_mul, pow_add]
    rw [← hw] at hb3
    have hA : -(2 ^ (2 * a.nbits) : Int) ≤ a.uint * b.uint := by
      have := mul_nonneg ha2 hb2; linarith
    have hB : a.uint * b.uint ≤ (2 ^ (2 * a.nbits) : Int) - 1 := by nlinarith
    unfold Bits.mul
    rw [if_pos hw]
    unfold Bits.init
    rw [if_neg h2n, if_neg (fun hc => hc.2 ⟨hA, hB⟩)]

/-- Witness for C9 at concrete 4-bit operands 9 and 14: sum 23 wraps to 7,
difference -5 wraps to 11, product 126 is held exactly in 8 bits. -/
theorem bits_add_sub_mul_semantics_witness :
    Bits.add ⟨4, 9⟩ ⟨4, 14⟩ = some ⟨4, 7⟩
  ∧ Bits.sub ⟨4, 9⟩ ⟨4, 14⟩ = some ⟨4, 11⟩
  ∧ Bits.mul ⟨4, 9⟩ ⟨4, 14⟩ = some ⟨8, 126⟩ := by
  have h := bits_add_sub_mul_semantics ⟨4, 9⟩ ⟨4, 14⟩ (by decide) (by decide)
  exact ⟨h.1, h.2.1, h.2.2 rfl⟩

/-- C10 (code bug): the representation invariant 0 <= uint <= 2^nbits - 1
is broken by write_slice with a fully open slice and a negative in-range
value: the raw value is stored without masking, unlike write, which masks
the same value into range. -/
theorem bits_write_slice_open_slice_stores_negative :
    Bits.init 4 5 false = some ⟨4, 5⟩
  ∧ Bits.write_slice ⟨4, 5⟩ (BAddr.slice none none) (-3) = some ⟨4, -3⟩
  ∧ ¬ Bits.wf ⟨4, -3⟩
  ∧ Bits.write ⟨4, 5⟩ (-3) = some ⟨4, 13⟩
  ∧ Bits.wf ⟨4, 13⟩ :=
  ⟨rfl, rfl, by decide, rfl, by decide⟩
